import Mathlib

/-!
Shallow embedding of `dev_tfd_search/tfd_search.py` (an interactive catalog
browser for weapons and modules) together with theorems checking its
natural-language specification.

Python dictionaries are modelled as association lists whose lookup takes the
value of the *last* binding of a key (insertion-with-overwrite semantics);
Python strings are Lean `String`s, `str.lower`/`str.strip`/`in` are modelled
over their character lists for the ASCII fragment the data uses.  Rich
`Table` objects are modelled by their ordered list of data rows (a row is a
list of string cells).  Filesystem side effects of the cache writer are
modelled as an explicit trace of operations.
-/

namespace TfdSearch

/-! ## String model: Python `str.lower`, `str.strip`, substring `in` -/

/-- ASCII model of Python `str.lower` on a single character. -/
def lowerChar (c : Char) : Char :=
  if 'A' ≤ c ∧ c ≤ 'Z' then Char.ofNat (c.toNat + 32) else c

/-- Model of Python `str.lower`. -/
def pyLower (s : String) : String :=
  String.mk (s.toList.map lowerChar)

/-- The characters Python `str.strip` removes (ASCII whitespace). -/
def isPySpace (c : Char) : Bool :=
  c == ' ' || c == '\t' || c == '\n' || c == '\r' ||
    c == Char.ofNat 11 || c == Char.ofNat 12

/-- Model of Python `str.strip()`: drop leading and trailing whitespace. -/
def pyStrip (s : String) : String :=
  String.mk (((s.toList.dropWhile isPySpace).reverse.dropWhile isPySpace).reverse)

/-- Decision procedure: `needleIn needle hay` decides whether `needle` occurs as a contiguous
substring of `hay`, as Python `needle in hay` does on strings. -/
def needleIn (needle hay : List Char) : Bool :=
  match hay with
  | [] => needle.isEmpty
  | _ :: t => needle.isPrefixOf hay || needleIn needle t

/-- Model of Python `needle in hay` for strings. -/
def pyIn (needle hay : String) : Bool :=
  needleIn needle.toList hay.toList

/-! ## Dictionary model -/

/-- A Python `dict` with string keys and values, as its insertion sequence;
later bindings of a key overwrite earlier ones, which `dictGet` realises by
preferring the match found in the tail. -/
abbrev StrDict := List (String × String)

/-- Lookup in the dictionary model: the value of the *last* binding of
`key`, as a Python dict built by successive insertions would return. -/
def dictGet : StrDict → String → Option String
  | [], _ => none
  | (k, v) :: rest, key =>
    match dictGet rest key with
    | some v2 => some v2
    | none => if k == key then some v else none

/-! ## Data model (shapes of the JSON records, tfd_search.py uses) -/

/-- One `(stat_id, stat_value)` entry of a weapon's `base_stat` list. -/
structure BaseStat where
  stat_id : String
  stat_value : Int
deriving DecidableEq

/-- One `(firearm_atk_type, firearm_atk_value)` entry inside a level entry. -/
structure FirearmEntry where
  firearm_atk_type : String
  firearm_atk_value : Int
deriving DecidableEq

/-- One entry of a weapon's `firearm_atk` progression: a level and its list
of attack-type entries. -/
structure LevelInfo where
  level : Int
  firearm : List FirearmEntry
deriving DecidableEq

/-- A weapon record (`weapon.json`). -/
structure Weapon where
  weapon_id : String
  weapon_name : String
  weapon_type : String
  weapon_tier : String
  weapon_rounds_type : String
  base_stat : List BaseStat
  firearm_atk : List LevelInfo
deriving DecidableEq

/-- One `(level, module_capacity, value)` triple of a module's
`module_stat` list; `value` is stored as a display string. -/
structure ModuleStat where
  level : Int
  module_capacity : Int
  value : String
deriving DecidableEq

/-- A module record (`module.json`). -/
structure GameModule where
  module_name : String
  module_stat : List ModuleStat
deriving DecidableEq

/-- One record of the stat dataset (`stat.json`). -/
structure StatItem where
  stat_id : String
  stat_name : String
deriving DecidableEq

/-- The StatID-to-StatName map; a `StrDict` built from the stat dataset. -/
abbrev StatMap := StrDict

/-- Embedding of the dict comprehension at `load_stat_data`, line 64:
`{item["stat_id"]: item["stat_name"] for item in data}` as the insertion
sequence of its bindings. -/
def buildStatMap (data : List StatItem) : StatMap :=
  data.map (fun it => (it.stat_id, it.stat_name))

/-- Stat-name resolution as inlined at tfd_search.py:100, 121-124, 206-208
and 217-220: `stat_map.get(sid, f"Unknown Stat ({sid})")`. -/
def resolveStatName (statMap : StatMap) (statId : String) : String :=
  (dictGet statMap statId).getD ("Unknown Stat (" ++ statId ++ ")")

/-! ## Search and the menu handlers around it -/

/-- A generic record as seen by `search_items`: a dict from field names to
string values (weapons and modules both expose their name field this way). -/
abbrev Item := StrDict

/-- Embedding of `search_items`, lines 82-85: the list comprehension
`[item for item in items if search_term.lower() in item[key].lower()]`.
A record without the `key` field makes Python raise `KeyError`, which the
embedding signals with `none`. -/
def searchItems (items : List Item) (searchTerm : String) (key : String) :
    Option (List Item) :=
  match items with
  | [] => some []
  | item :: rest =>
    match dictGet item key with
    | none => none
    | some v =>
      match searchItems rest searchTerm key with
      | none => none
      | some r =>
        some (if pyIn (pyLower searchTerm) (pyLower v) then item :: r else r)

/-- The predicate of the comprehension in `search_items`: the lowered search
term occurs in the lowered value of the record's `key` field. -/
def matchesTerm (searchTerm key : String) (item : Item) : Bool :=
  match dictGet item key with
  | some v => pyIn (pyLower searchTerm) (pyLower v)
  | none => false

/-- Outcome of one round of `handle_search_weapons` / `handle_search_modules`
(lines 305-368), up to the point where a nonempty result list is handed to
disambiguation and display. -/
inductive SearchOutcome where
  | exited
  | emptyTerm
  | keyError
  | noMatches
  | results (rs : List Item)
deriving DecidableEq

/-- Embedding of `handle_search_weapons`, lines 305-335: `None` or `"exit"` exits, a term
that strips to empty is rejected before `search_items` runs, then the filter
runs on the `weapon_name` field. -/
def handleSearchWeapons (weapons : List Item) (searchTerm : Option String) :
    SearchOutcome :=
  match searchTerm with
  | none => .exited
  | some t =>
    if pyLower t == "exit" then .exited
    else if pyStrip t == "" then .emptyTerm
    else
      match searchItems weapons t "weapon_name" with
      | none => .keyError
      | some [] => .noMatches
      | some rs => .results rs

/-- Embedding of `handle_search_modules`, lines 338-368: same shape over `module_name`. -/
def handleSearchModules (modules : List Item) (searchTerm : Option String) :
    SearchOutcome :=
  match searchTerm with
  | none => .exited
  | some t =>
    if pyLower t == "exit" then .exited
    else if pyStrip t == "" then .emptyTerm
    else
      match searchItems modules t "module_name" with
      | none => .keyError
      | some [] => .noMatches
      | some rs => .results rs

/-! ## Table builders (a rich Table is modelled as its list of data rows) -/

/-- Embedding of `create_base_stats_table`, lines 88-103: four identity rows then one row
per base-stat entry, accumulated by successive `add_row` calls. -/
def createBaseStatsTable (weapon : Weapon) (statMap : StatMap) :
    List (List String) :=
  let rows := [["Weapon ID", weapon.weapon_id],
               ["Weapon Type", weapon.weapon_type],
               ["Weapon Tier", weapon.weapon_tier],
               ["Rounds Type", weapon.weapon_rounds_type]]
  weapon.base_stat.foldl
    (fun acc stat =>
      acc ++ [[resolveStatName statMap stat.stat_id, toString stat.stat_value]])
    rows

/-- Embedding of `create_firearm_attack_table`, lines 106-129: for each level entry whose
level lies in `[startLevel, endLevel]`, one row per attack-type entry, in
source order. -/
def createFirearmAttackTable (weapon : Weapon) (statMap : StatMap)
    (startLevel endLevel : Int) : List (List String) :=
  weapon.firearm_atk.foldl
    (fun acc levelInfo =>
      if startLevel ≤ levelInfo.level ∧ levelInfo.level ≤ endLevel then
        levelInfo.firearm.foldl
          (fun acc2 f =>
            acc2 ++ [[toString levelInfo.level,
                      resolveStatName statMap f.firearm_atk_type,
                      toString f.firearm_atk_value]])
          acc
      else acc)
    []

/-- Embedding of `create_module_stats_table`, lines 132-145: one data row per module-stat
triple, each followed by a blank `("", "", "")` row. -/
def createModuleStatsTable (module : GameModule) : List (List String) :=
  module.module_stat.foldl
    (fun acc stat =>
      acc ++ [[toString stat.level, toString stat.module_capacity, stat.value]]
          ++ [["", "", ""]])
    []

/-! ## CSV row preparation -/

/-- The argument of `prepare_csv_rows`: the source sniffs the record shape
with `if "weapon_id" in data` (line 196); a weapon record carries that key
and a module record does not, so the dynamic test becomes this variant. -/
inductive CsvInput where
  | weapon (w : Weapon)
  | module (m : GameModule)
deriving DecidableEq

/-- Embedding of `prepare_csv_rows`, lines 192-233.  `statMap = none` models the call
with the default `stat_map=None`; the guard `if stat_map:` at line 203 is
Python truthiness, false for both `None` and an empty dict. -/
def prepareCsvRows (data : CsvInput) (statMap : Option StatMap) :
    List (List String) :=
  match data with
  | .weapon w =>
    let rows := [["Weapon ID", w.weapon_id]]
    let rows := rows ++ [["Weapon Type", w.weapon_type]]
    let rows := rows ++ [["Weapon Tier", w.weapon_tier]]
    let rows := rows ++ [["Rounds Type", w.weapon_rounds_type]]
    let rows := rows ++ [[]]
    match statMap with
    | none => rows
    | some m =>
      if m.isEmpty then rows
      else
        let rows := rows ++ [["Base Stats"]]
        let rows := w.base_stat.foldl
          (fun acc stat =>
            acc ++ [[resolveStatName m stat.stat_id, toString stat.stat_value]])
          rows
        let rows := rows ++ [[]]
        let rows := rows ++ [["Firearm Attack (1-160)"]]
        let rows := rows ++ [["Level", "Type", "Value"]]
        w.firearm_atk.foldl
          (fun acc levelInfo =>
            levelInfo.firearm.foldl
              (fun acc2 f =>
                acc2 ++ [[toString levelInfo.level,
                          resolveStatName m f.firearm_atk_type,
                          toString f.firearm_atk_value]])
              acc)
          rows
  | .module mo =>
    let rows := [["Module Name", mo.module_name]]
    let rows := rows ++ [[]]
    let rows := rows ++ [["Level", "Capacity", "Value"]]
    mo.module_stat.foldl
      (fun acc stat =>
        acc ++ [[toString stat.level, toString stat.module_capacity, stat.value]])
      rows

/-- Embedding of `display_weapon_info`, lines 148-175: after the chosen window is shown
on screen, choosing "Output to CSV" calls `export_json_to_csv(weapon,
stat_map)` (line 175) — the window is *not* passed along, and
`export_json_to_csv` hands the record straight to `prepare_csv_rows`
(line 271). -/
def exportAfterViewing (weapon : Weapon) (statMap : StatMap)
    (startLevel endLevel : Int) : List (List String) :=
  let _displayed := (createBaseStatsTable weapon statMap,
                     createFirearmAttackTable weapon statMap startLevel endLevel)
  prepareCsvRows (.weapon weapon) (some statMap)

/-! ## Dataset loader (cache-or-fetch), with the cache file as explicit state -/

/-- The state of one dataset's cache file: whether `os.path.exists` holds
and, when it does, the parsed records it stores. -/
structure FileState (α : Type) where
  present : Bool
  content : List α
deriving DecidableEq

/-- Embedding of `fetch_and_cache_json`, lines 35-44, as a state transformer on the
dataset's cache file.  `remote = none` models a failing GET
(`raise_for_status` aborts before any write); on success the records are
written to the cache and returned. -/
def fetchAndCacheJson {α : Type} (remote : Option (List α))
    (_cache : FileState α) : Option (List α × FileState α) :=
  match remote with
  | none => none
  | some data => some (data, ⟨true, data⟩)

/-- Embedding of `load_json_from_cache`, lines 47-49: read the parsed records back. -/
def loadJsonFromCache {α : Type} (cache : FileState α) : List α :=
  cache.content

/-- Embedding of `load_weapon_data`, lines 52-55. -/
def loadWeaponData (cache : FileState Weapon) (remote : Option (List Weapon)) :
    Option (List Weapon × FileState Weapon) :=
  if !cache.present then fetchAndCacheJson remote cache
  else some (loadJsonFromCache cache, cache)

/-- Embedding of `load_stat_data`, lines 58-64: cache-or-fetch on the stat dataset, then
the dict comprehension deriving the StatID-to-StatName map. -/
def loadStatData (cache : FileState StatItem)
    (remote : Option (List StatItem)) : Option (StatMap × FileState StatItem) :=
  match
    (if !cache.present then fetchAndCacheJson remote cache
     else some (loadJsonFromCache cache, cache)) with
  | none => none
  | some (data, cache2) => some (buildStatMap data, cache2)

/-- Embedding of `load_module_data`, lines 67-70. -/
def loadModuleData (cache : FileState GameModule)
    (remote : Option (List GameModule)) :
    Option (List GameModule × FileState GameModule) :=
  if !cache.present then fetchAndCacheJson remote cache
  else some (loadJsonFromCache cache, cache)

/-! ## Filesystem trace of the cache writer -/

/-- Filesystem operations the cache writer can perform. -/
inductive FsOp where
  | makedirs (dir : String)
  | openTrunc (path : String)
  | writeAll (path : String) (contents : String)
  | closeFile (path : String)
  | rename (src : String) (dst : String)
deriving DecidableEq

/-- Model of `os.path.dirname`: the part of the path before its last `/` (empty when
there is no `/`). -/
def dirName (path : String) : String :=
  String.mk (((path.toList.reverse.dropWhile (fun c => c != '/')).drop 1).reverse)

/-- The filesystem operations `fetch_and_cache_json` performs after a
successful GET whose body serializes to `body`, lines 40-42:
`os.makedirs(os.path.dirname(cache_file), exist_ok=True)`, then
`open(cache_file, "w")` and `json.dump(data, file)` on the final path. -/
def fetchAndCacheTrace (cacheFile : String) (body : String) : List FsOp :=
  [FsOp.makedirs (dirName cacheFile),
   FsOp.openTrunc cacheFile,
   FsOp.writeAll cacheFile body,
   FsOp.closeFile cacheFile]

/-- Effect of one filesystem operation on the map from paths to file
contents (`none` meaning the file does not exist). -/
def applyFsOp (fs : String → Option String) : FsOp → (String → Option String)
  | .makedirs _ => fs
  | .openTrunc p => Function.update fs p (some "")
  | .writeAll p s => Function.update fs p (some ((fs p).getD "" ++ s))
  | .closeFile _ => fs
  | .rename src dst =>
    fun q => if q == dst then fs src else if q == src then none else fs q

/-- Run a whole trace of filesystem operations. -/
def runFsOps (fs : String → Option String) (ops : List FsOp) :
    String → Option String :=
  ops.foldl applyFsOp fs

/-- Run a trace that is interrupted at operation `i`: the first `i`
operations complete, and if operation `i` is a write, only its first `k`
characters reach the disk. -/
def runInterrupted (fs : String → Option String) (ops : List FsOp)
    (i k : Nat) : String → Option String :=
  let fs2 := runFsOps fs (ops.take i)
  match (ops.drop i).head? with
  | some (.writeAll p s) =>
    Function.update fs2 p (some ((fs2 p).getD "" ++ String.mk (s.toList.take k)))
  | _ => fs2

/-- The empty filesystem. -/
def emptyFs : String → Option String := fun _ => none

/-! ## Concrete records used as test inputs -/

/-- A small stat-name map used in witnesses. -/
def m0 : StatMap := [("105", "Firearm ATK"), ("501", "Critical Hit Rate")]

/-- A level-121 attack entry. -/
def f121 : FirearmEntry := ⟨"105", 5000⟩

/-- The level-121 entry of the test weapon. -/
def li121 : LevelInfo := ⟨121, [f121]⟩

/-- A test weapon whose progression has a level-1 and a level-121 entry. -/
def w121 : Weapon :=
  { weapon_id := "W1"
    weapon_name := "Ironclad"
    weapon_type := "Rifle"
    weapon_tier := "Ultimate"
    weapon_rounds_type := "General"
    base_stat := [⟨"501", 25⟩, ⟨"999", 7⟩]
    firearm_atk := [⟨1, [⟨"105", 30⟩]⟩, li121] }

/-- A weapon with four distinct levels, for the window-filtering example. -/
def wLevels : Weapon :=
  { weapon_id := "W2"
    weapon_name := "Quartet"
    weapon_type := "Launcher"
    weapon_tier := "Rare"
    weapon_rounds_type := "Impact"
    base_stat := []
    firearm_atk := [⟨1, [⟨"105", 10⟩]⟩, ⟨31, [⟨"105", 20⟩]⟩,
                    ⟨91, [⟨"105", 30⟩, ⟨"106", 3⟩]⟩, ⟨121, [⟨"105", 40⟩]⟩] }

/-! ## Helper lemmas about the row-accumulating folds -/

theorem foldl_app_single {α β : Type _} (g : α → β) :
    ∀ (l : List α) (init : List β),
      l.foldl (fun acc x => acc ++ [g x]) init = init ++ l.map g := by
  intro l
  induction l with
  | nil => intro init; simp
  | cons a t ih =>
    intro init
    simp only [List.foldl_cons, List.map_cons]
    rw [ih]
    simp

theorem foldl_app_pair {α β : Type _} (g h : α → β) :
    ∀ (l : List α) (init : List β),
      l.foldl (fun acc x => acc ++ [g x] ++ [h x]) init
        = init ++ l.flatMap (fun x => [g x, h x]) := by
  intro l
  induction l with
  | nil => intro init; simp
  | cons a t ih =>
    intro init
    simp only [List.foldl_cons]
    rw [ih]
    simp

theorem foldl_nested {α β γ : Type _} (g : α → List γ) (r : α → γ → β) :
    ∀ (l : List α) (init : List β),
      l.foldl (fun acc x => (g x).foldl (fun acc2 y => acc2 ++ [r x y]) acc) init
        = init ++ l.flatMap (fun x => (g x).map (r x)) := by
  intro l
  induction l with
  | nil => intro init; simp
  | cons a t ih =>
    intro init
    simp only [List.foldl_cons]
    rw [foldl_app_single, ih]
    simp

theorem foldl_nested_filter {α β γ : Type _} (p : α → Prop) [DecidablePred p]
    (g : α → List γ) (r : α → γ → β) :
    ∀ (l : List α) (init : List β),
      l.foldl (fun acc x =>
          if p x then (g x).foldl (fun acc2 y => acc2 ++ [r x y]) acc else acc)
        init
        = init ++ (l.filter (fun x => decide (p x))).flatMap
            (fun x => (g x).map (r x)) := by
  intro l
  induction l with
  | nil => intro init; simp
  | cons a t ih =>
    intro init
    simp only [List.foldl_cons, List.filter_cons]
    by_cases hpa : p a
    · rw [if_pos hpa, foldl_app_single, ih]
      simp [hpa]
    · rw [if_neg hpa, ih]
      simp [hpa]

/-- Lookup `dictGet` on an appended dictionary prefers the second part. -/
theorem dictGet_append (l1 l2 : StrDict) (key : String) :
    dictGet (l1 ++ l2) key
      = match dictGet l2 key with
        | some v => some v
        | none => dictGet l1 key := by
  induction l1 with
  | nil =>
    simp only [List.nil_append]
    cases dictGet l2 key <;> rfl
  | cons kv rest ih =>
    obtain ⟨k, v⟩ := kv
    rw [List.cons_append]
    show (match dictGet (rest ++ l2) key with
          | some v2 => some v2
          | none => if k == key then some v else none) = _
    rw [ih]
    cases h : dictGet l2 key
    · simp only [dictGet]
    · rfl

/-! ## Claim theorems -/

/-- C7: `create_firearm_attack_table` yields exactly the rows of the level
entries inside the inclusive window `[startLevel, endLevel]`, preserving the
original level order and the within-level attack-type order. -/
theorem firearm_window_filter (w : Weapon) (m : StatMap) (s e : Int) :
    createFirearmAttackTable w m s e
      = (w.firearm_atk.filter (fun li => decide (s ≤ li.level ∧ li.level ≤ e))).flatMap
          (fun li => li.firearm.map (fun f =>
            [toString li.level, resolveStatName m f.firearm_atk_type,
             toString f.firearm_atk_value])) ∧
    createFirearmAttackTable wLevels m0 91 120
      = [["91", "Firearm ATK", "30"], ["91", "Unknown Stat (106)", "3"]] := by
  constructor
  · have h := foldl_nested_filter (fun li : LevelInfo => s ≤ li.level ∧ li.level ≤ e)
      (fun li => li.firearm)
      (fun li f => [toString li.level, resolveStatName m f.firearm_atk_type,
                    toString f.firearm_atk_value])
      w.firearm_atk []
    simpa [createFirearmAttackTable] using h
  · decide

/-- C8: stat-name resolution is total: it returns the mapped name when the
identifier is a key of the map and otherwise the placeholder
`Unknown Stat (<id>)`; in particular on the map `{"501": "Critical Hit
Rate"}` it sends `"501"` to `"Critical Hit Rate"` and `"999"` to
`"Unknown Stat (999)"`. -/
theorem stat_name_resolution (m : StatMap) (sid : String) :
    (∀ n, dictGet m sid = some n → resolveStatName m sid = n) ∧
    (dictGet m sid = none →
      resolveStatName m sid = "Unknown Stat (" ++ sid ++ ")") ∧
    resolveStatName [("501", "Critical Hit Rate")] "501" = "Critical Hit Rate" ∧
    resolveStatName [("501", "Critical Hit Rate")] "999" = "Unknown Stat (999)" := by
  refine ⟨?_, ?_, by decide, by decide⟩
  · intro n hn
    simp [resolveStatName, hn]
  · intro hn
    simp [resolveStatName, hn]

/-- Witness for C8 at the spec's concrete map. -/
theorem stat_name_resolution_witness :
    resolveStatName [("501", "Critical Hit Rate")] "501" = "Critical Hit Rate" ∧
    resolveStatName [("501", "Critical Hit Rate")] "999"
      = "Unknown Stat (999)" :=
  ⟨(stat_name_resolution [("501", "Critical Hit Rate")] "501").1
      "Critical Hit Rate" (by decide),
   (stat_name_resolution [("501", "Critical Hit Rate")] "999").2.1 (by decide)⟩

/-- C9: the on-screen module table has one data row per stat triple with a
blank row after every data row, while the module CSV rows are a name row, a
blank separator, a column-header row, then one row per triple with no blank
rows in between. -/
theorem module_tables_shape (mo : GameModule) (sm : Option StatMap) :
    createModuleStatsTable mo
      = mo.module_stat.flatMap (fun stat =>
          [[toString stat.level, toString stat.module_capacity, stat.value],
           ["", "", ""]]) ∧
    prepareCsvRows (.module mo) sm
      = [["Module Name", mo.module_name], [], ["Level", "Capacity", "Value"]]
        ++ mo.module_stat.map (fun stat =>
            [toString stat.level, toString stat.module_capacity, stat.value]) := by
  constructor
  · have h := foldl_app_pair
      (fun stat : ModuleStat =>
        [toString stat.level, toString stat.module_capacity, stat.value])
      (fun _ : ModuleStat => ["", "", ""]) mo.module_stat []
    simpa [createModuleStatsTable] using h
  · have h := foldl_app_single
      (fun stat : ModuleStat =>
        [toString stat.level, toString stat.module_capacity, stat.value])
      mo.module_stat
      [["Module Name", mo.module_name], [], ["Level", "Capacity", "Value"]]
    simpa [prepareCsvRows] using h

/-- C10: the derived StatID-to-StatName map holds exactly the `stat_id` keys
of the stat dataset, and on a duplicated `stat_id` the name of the last
entry in list order is the one retrieved. -/
theorem stat_map_last_wins (data : List StatItem) (k : String) :
    dictGet (buildStatMap data) k
      = ((data.filter (fun it => it.stat_id == k)).getLast?).map
          (fun it => it.stat_name) ∧
    ((dictGet (buildStatMap data) k).isSome = true
      ↔ k ∈ data.map (fun it => it.stat_id)) := by
  have main : dictGet (buildStatMap data) k
      = ((data.filter (fun it => it.stat_id == k)).getLast?).map
          (fun it => it.stat_name) := by
    induction data using List.reverseRecOn with
    | nil => rfl
    | append_singleton d a ih =>
      rw [buildStatMap, List.map_append, dictGet_append, List.filter_append]
      simp only [List.map_cons, List.map_nil, List.filter_cons, List.filter_nil]
      by_cases ha : a.stat_id = k
      · simp [dictGet, ha]
      · have hb : (a.stat_id == k) = false := by simpa using ha
        simp only [hb, if_neg, dictGet]
        simpa [hb] using ih
  refine ⟨main, ?_⟩
  rw [main]
  simp only [Option.isSome_map']
  rw [List.getLast?_isSome]
  constructor
  · intro hne
    obtain ⟨it, hit⟩ := List.exists_mem_of_ne_nil _ hne
    have := List.mem_filter.mp hit
    exact List.mem_map.mpr ⟨it, this.1, by simpa using this.2⟩
  · intro hk
    obtain ⟨it, hit, hik⟩ := List.mem_map.mp hk
    intro hnil
    have : it ∈ data.filter (fun it => it.stat_id == k) :=
      List.mem_filter.mpr ⟨hit, by simpa using hik⟩
    simp [hnil] at this

/-- Expansion of the weapon branch of `prepare_csv_rows` when the stat-name
map is truthy (a non-empty dict): the full flat report, with the unwindowed
firearm-attack rows at the end. -/
theorem prepareCsvRows_weapon_expand (w : Weapon) (m : StatMap)
    (hm : m.isEmpty = false) :
    prepareCsvRows (.weapon w) (some m)
      = [["Weapon ID", w.weapon_id], ["Weapon Type", w.weapon_type],
         ["Weapon Tier", w.weapon_tier], ["Rounds Type", w.weapon_rounds_type],
         [], ["Base Stats"]]
        ++ w.base_stat.map (fun stat =>
            [resolveStatName m stat.stat_id, toString stat.stat_value])
        ++ [[], ["Firearm Attack (1-160)"], ["Level", "Type", "Value"]]
        ++ w.firearm_atk.flatMap (fun li => li.firearm.map (fun f =>
            [toString li.level, resolveStatName m f.firearm_atk_type,
             toString f.firearm_atk_value])) := by
  simp only [prepareCsvRows, hm]
  rw [foldl_nested, foldl_app_single]
  simp

/-- C1 (amended): for a *non-empty* stat-name map, `prepare_csv_rows` on a
weapon returns the four identity rows, a blank row, the `Base Stats` header,
one name-resolved row per base-stat entry (with the Unknown-Stat fallback),
a blank row, the `Firearm Attack (1-160)` header, the `[Level, Type, Value]`
column-header row, and the full-range firearm-attack rows, in that order; a
partial or stale map only degrades names, never the shape.  (Against an
*empty* map the sections after the identity rows are skipped, see the
counterexample.) -/
theorem csv_weapon_full_report (w : Weapon) (m : StatMap) (hm : m ≠ []) :
    prepareCsvRows (.weapon w) (some m)
      = [["Weapon ID", w.weapon_id], ["Weapon Type", w.weapon_type],
         ["Weapon Tier", w.weapon_tier], ["Rounds Type", w.weapon_rounds_type],
         [], ["Base Stats"]]
        ++ w.base_stat.map (fun stat =>
            [resolveStatName m stat.stat_id, toString stat.stat_value])
        ++ [[], ["Firearm Attack (1-160)"], ["Level", "Type", "Value"]]
        ++ w.firearm_atk.flatMap (fun li => li.firearm.map (fun f =>
            [toString li.level, resolveStatName m f.firearm_atk_type,
             toString f.firearm_atk_value])) := by
  have hempty : m.isEmpty = false := by
    cases m with
    | nil => exact absurd rfl hm
    | cons a t => rfl
  exact prepareCsvRows_weapon_expand w m hempty

/-- C1 counterexample: against an *empty* stat-name map (Python-falsy), the
weapon CSV report of a weapon that does have base stats and firearm-attack
entries stops after the identity rows and the blank separator — the
`Base Stats` and `Firearm Attack (1-160)` sections are absent, so the full
report is not producible against an empty map as the claim states. -/
theorem csv_weapon_report_empty_map_cex :
    prepareCsvRows (.weapon w121) (some [])
      = [["Weapon ID", "W1"], ["Weapon Type", "Rifle"],
         ["Weapon Tier", "Ultimate"], ["Rounds Type", "General"], []]
    ∧ ["Base Stats"] ∉ prepareCsvRows (.weapon w121) (some [])
    ∧ ["Firearm Attack (1-160)"] ∉ prepareCsvRows (.weapon w121) (some [])
    ∧ w121.base_stat ≠ [] ∧ w121.firearm_atk ≠ [] := by
  decide

/-- Witness for C1 on a concrete weapon and non-empty map. -/
theorem csv_weapon_full_report_witness :
    prepareCsvRows (.weapon w121) (some m0)
      = [["Weapon ID", w121.weapon_id], ["Weapon Type", w121.weapon_type],
         ["Weapon Tier", w121.weapon_tier], ["Rounds Type", w121.weapon_rounds_type],
         [], ["Base Stats"]]
        ++ w121.base_stat.map (fun stat =>
            [resolveStatName m0 stat.stat_id, toString stat.stat_value])
        ++ [[], ["Firearm Attack (1-160)"], ["Level", "Type", "Value"]]
        ++ w121.firearm_atk.flatMap (fun li => li.firearm.map (fun f =>
            [toString li.level, resolveStatName m0 f.firearm_atk_type,
             toString f.firearm_atk_value])) :=
  csv_weapon_full_report w121 m0 (by decide)

/-- C2: the CSV export reached from the weapon display screen is the same
row list whatever level window was viewed (the window is not even passed to
`prepare_csv_rows`), and with a usable (non-empty) stat-name map it contains
a row for *every* level entry and attack-type entry of the weapon's
firearm-attack progression — the full 1-160 range. -/
theorem csv_export_full_range_window_independent
    (w : Weapon) (m : StatMap) (s e s2 e2 : Int) :
    exportAfterViewing w m s e = exportAfterViewing w m s2 e2 ∧
    (m ≠ [] → ∀ li ∈ w.firearm_atk, ∀ f ∈ li.firearm,
      [toString li.level, resolveStatName m f.firearm_atk_type,
       toString f.firearm_atk_value] ∈ exportAfterViewing w m s e) := by
  constructor
  · rfl
  · intro hm li hli f hf
    have hempty : m.isEmpty = false := by
      cases m with
      | nil => exact absurd rfl hm
      | cons a t => rfl
    show _ ∈ prepareCsvRows (.weapon w) (some m)
    rw [prepareCsvRows_weapon_expand w m hempty]
    refine List.mem_append.mpr (Or.inr ?_)
    exact List.mem_flatMap.mpr ⟨li, hli, List.mem_map.mpr ⟨f, hf, rfl⟩⟩

/-- Witness for C2: after viewing window (1, 30), the export still contains
the level-121 row, and it equals the export after viewing (91, 120). -/
theorem csv_export_full_range_witness :
    exportAfterViewing w121 m0 1 30 = exportAfterViewing w121 m0 91 120 ∧
    [toString li121.level, resolveStatName m0 f121.firearm_atk_type,
     toString f121.firearm_atk_value] ∈ exportAfterViewing w121 m0 1 30 := by
  obtain ⟨h1, h2⟩ := csv_export_full_range_window_independent w121 m0 1 30 91 120
  exact ⟨h1, h2 (by decide) li121 (by decide) f121 (by decide)⟩

/-- Key lemma: `search_items` computes exactly the filter by the case-insensitive
substring predicate when every record carries the `key` field. -/
theorem searchItems_eq_filter (term key : String) :
    ∀ items : List Item,
      (∀ it ∈ items, (dictGet it key).isSome = true) →
      searchItems items term key = some (items.filter (matchesTerm term key)) := by
  intro items
  induction items with
  | nil => intro h; rfl
  | cons it rest ih =>
    intro h
    obtain ⟨v, hv⟩ :=
      Option.isSome_iff_exists.mp (h it (List.mem_cons_self it rest))
    have h2 := ih (fun x hx => h x (List.mem_cons_of_mem it hx))
    simp only [searchItems, hv, h2, List.filter_cons]
    have hmt : matchesTerm term key it = pyIn (pyLower term) (pyLower v) := by
      simp [matchesTerm, hv]
    rw [hmt]

/-- C5: on records that all carry the name field, `search_items` returns
exactly the records whose field value contains the term as a
case-insensitive substring, as the order-preserving filtered subsequence of
the input; in particular `"iron"` finds `"Ironclad"` and `"iro n"` finds
nothing. -/
theorem search_case_insensitive_substring (items : List Item) (term key : String)
    (h : ∀ it ∈ items, (dictGet it key).isSome = true) :
    searchItems items term key = some (items.filter (matchesTerm term key)) ∧
    List.Sublist (items.filter (matchesTerm term key)) items ∧
    searchItems [[("name", "Ironclad")]] "iron" "name"
      = some [[("name", "Ironclad")]] ∧
    searchItems [[("name", "Ironclad")]] "iro n" "name" = some [] :=
  ⟨searchItems_eq_filter term key items h, List.filter_sublist _,
   by decide, by decide⟩

/-- Witness for C5 on a concrete two-record list. -/
theorem search_case_insensitive_substring_witness :
    searchItems [[("name", "Ironclad")], [("name", "Bronze")]] "IRON" "name"
      = some ([[("name", "Ironclad")], [("name", "Bronze")]].filter
          (matchesTerm "IRON" "name")) ∧
    searchItems [[("name", "Ironclad")]] "iron" "name"
      = some [[("name", "Ironclad")]] := by
  obtain ⟨h1, h2, h3, h4⟩ := search_case_insensitive_substring
    [[("name", "Ironclad")], [("name", "Bronze")]] "IRON" "name" (by decide)
  exact ⟨h1, h3⟩

/-- A string that strips to empty consists of whitespace only. -/
theorem strip_empty_all_space (t : String) (h : pyStrip t = "") :
    ∀ c ∈ t.toList, isPySpace c = true := by
  have hl : ((t.toList.dropWhile isPySpace).reverse.dropWhile isPySpace).reverse
      = [] := by
    have := congrArg String.data h
    simpa [pyStrip] using this
  have h2 : (t.toList.dropWhile isPySpace).reverse.dropWhile isPySpace = [] :=
    List.reverse_eq_nil_iff.mp hl
  have h4 : ∀ c ∈ t.toList.dropWhile isPySpace, isPySpace c = true := by
    intro c hc
    exact List.dropWhile_eq_nil_iff.mp h2 c (List.mem_reverse.mpr hc)
  intro c hc
  rw [← List.takeWhile_append_dropWhile (p := isPySpace) (l := t.toList)] at hc
  rcases List.mem_append.mp hc with hc1 | hc2
  · exact List.mem_takeWhile_imp hc1
  · exact h4 c hc2

/-- Python `lower` fixes every whitespace character. -/
theorem lowerChar_of_space (c : Char) (h : isPySpace c = true) :
    lowerChar c = c := by
  simp only [isPySpace, Bool.or_eq_true, beq_iff_eq] at h
  rcases h with ((((h | h) | h) | h) | h) | h <;> subst h <;> decide

/-- The lowering of a whitespace-only string is never the keyword `exit`. -/
theorem all_space_lower_ne_exit (t : String)
    (h : ∀ c ∈ t.toList, isPySpace c = true) : pyLower t ≠ "exit" := by
  intro he
  have hd : t.toList.map lowerChar = "exit".toList := congrArg String.data he
  cases ht : t.toList with
  | nil => rw [ht] at hd; exact absurd hd (by decide)
  | cons c cs =>
    rw [ht] at hd
    have hex : "exit".toList = ['e', 'x', 'i', 't'] := rfl
    rw [List.map_cons, hex] at hd
    have hc : lowerChar c = 'e' := (List.cons.injEq _ _ _ _ ▸ hd).1
    have hsp : isPySpace c = true := h c (by rw [ht]; exact List.mem_cons_self c cs)
    rw [lowerChar_of_space c hsp] at hc
    rw [hc] at hsp
    exact absurd hsp (by decide)

/-- C6: a search term that strips to the empty string is rejected by the
handler as the empty-term outcome, before `search_items` could run, and in
particular the outcome is never the all-records result. -/
theorem empty_search_term_rejected (ws ms : List Item) (t : String)
    (h : pyStrip t = "") :
    handleSearchWeapons ws (some t) = SearchOutcome.emptyTerm ∧
    handleSearchModules ms (some t) = SearchOutcome.emptyTerm ∧
    handleSearchWeapons ws (some t) ≠ SearchOutcome.results ws ∧
    handleSearchModules ms (some t) ≠ SearchOutcome.results ms := by
  have hsp := strip_empty_all_space t h
  have hexit : pyLower t ≠ "exit" := all_space_lower_ne_exit t hsp
  have hw : handleSearchWeapons ws (some t) = SearchOutcome.emptyTerm := by
    simp [handleSearchWeapons, h, hexit]
  have hm : handleSearchModules ms (some t) = SearchOutcome.emptyTerm := by
    simp [handleSearchModules, h, hexit]
  refine ⟨hw, hm, ?_, ?_⟩
  · simp [hw]
  · simp [hm]

/-- Witness for C6 at the whitespace-only term `"   "`. -/
theorem empty_search_term_rejected_witness :
    handleSearchWeapons [[("weapon_name", "Ironclad")]] (some "   ")
      = SearchOutcome.emptyTerm ∧
    handleSearchModules [[("module_name", "Focus")]] (some "   ")
      = SearchOutcome.emptyTerm := by
  obtain ⟨h1, h2, h3, h4⟩ := empty_search_term_rejected
    [[("weapon_name", "Ironclad")]] [[("module_name", "Focus")]] "   " (by decide)
  exact ⟨h1, h2⟩

/-- C4: for each of the three datasets, load returns the cached records
when the cache file exists and otherwise fetches, writes the fetched
records to the cache (the returned cache state is present and holds exactly
the fetched records — never fetch-without-cache), and returns them; the
stat loader additionally derives the StatID-to-StatName map. -/
theorem load_cache_or_fetch
    (wc : FileState Weapon) (wrem : Option (List Weapon))
    (sc : FileState StatItem) (srem : Option (List StatItem))
    (mc : FileState GameModule) (mrem : Option (List GameModule)) :
    (wc.present = true → loadWeaponData wc wrem = some (wc.content, wc)) ∧
    (wc.present = false → ∀ d, wrem = some d →
      loadWeaponData wc wrem = some (d, ⟨true, d⟩)) ∧
    (sc.present = true → loadStatData sc srem
      = some (buildStatMap sc.content, sc)) ∧
    (sc.present = false → ∀ d, srem = some d →
      loadStatData sc srem = some (buildStatMap d, ⟨true, d⟩)) ∧
    (mc.present = true → loadModuleData mc mrem = some (mc.content, mc)) ∧
    (mc.present = false → ∀ d, mrem = some d →
      loadModuleData mc mrem = some (d, ⟨true, d⟩)) := by
  refine ⟨?_, ?_, ?_, ?_, ?_, ?_⟩
  · intro h
    simp [loadWeaponData, h, loadJsonFromCache]
  · intro h d hd
    simp [loadWeaponData, h, hd, fetchAndCacheJson]
  · intro h
    simp [loadStatData, h, loadJsonFromCache]
  · intro h d hd
    simp [loadStatData, h, hd, fetchAndCacheJson]
  · intro h
    simp [loadModuleData, h, loadJsonFromCache]
  · intro h d hd
    simp [loadModuleData, h, hd, fetchAndCacheJson]

/-- Witness for C4: a weapon cache hit, a stat cache miss with a successful
fetch, and a module cache miss with a successful fetch. -/
theorem load_cache_or_fetch_witness :
    loadWeaponData ⟨true, [w121]⟩ none = some ([w121], ⟨true, [w121]⟩) ∧
    loadStatData ⟨false, []⟩ (some [⟨"501", "Critical Hit Rate"⟩])
      = some (buildStatMap [⟨"501", "Critical Hit Rate"⟩],
              ⟨true, [⟨"501", "Critical Hit Rate"⟩]⟩) ∧
    loadModuleData ⟨false, []⟩ (some [⟨"Focus", [⟨1, 6, "x"⟩]⟩])
      = some ([⟨"Focus", [⟨1, 6, "x"⟩]⟩], ⟨true, [⟨"Focus", [⟨1, 6, "x"⟩]⟩]⟩) := by
  obtain ⟨h1, h2, h3, h4, h5, h6⟩ := load_cache_or_fetch
    ⟨true, [w121]⟩ none
    ⟨false, []⟩ (some [⟨"501", "Critical Hit Rate"⟩])
    ⟨false, []⟩ (some [⟨"Focus", [⟨1, 6, "x"⟩]⟩])
  exact ⟨h1 rfl, h4 rfl _ rfl, h6 rfl _ rfl⟩

/-- C3 counterexample: the cache write of `fetch_and_cache_json` performs no
rename at all — it opens the final cache path itself for truncating write —
and interrupting it mid-write leaves the cache file holding a strict part of
the serialized data (here `"["` out of `"[1, 2]"`), so the write is not the
claimed write-temp-then-rename atomic overwrite. -/
theorem cache_write_no_rename_cex :
    fetchAndCacheTrace "d/cache.json" "[1, 2]"
      = [FsOp.makedirs "d", FsOp.openTrunc "d/cache.json",
         FsOp.writeAll "d/cache.json" "[1, 2]", FsOp.closeFile "d/cache.json"]
    ∧ (fetchAndCacheTrace "d/cache.json" "[1, 2]").all
        (fun op => match op with
          | FsOp.rename _ _ => false
          | _ => true) = true
    ∧ runInterrupted emptyFs (fetchAndCacheTrace "d/cache.json" "[1, 2]") 2 1
        "d/cache.json" = some "["
    ∧ "[" ≠ "[1, 2]" := by
  refine ⟨by decide, by decide, ?_, by decide⟩
  simp [runInterrupted, runFsOps, fetchAndCacheTrace, applyFsOp, emptyFs,
        Function.update]

/-- C3 (amended): the cache write creates the parent directory as needed and
then overwrites the cache file *directly*: it opens the final path in
truncating write mode and writes the body there, with no temporary path and
no rename anywhere in the trace; consequently an interruption mid-write can
leave the cache file holding a proper, unparseable part of the data (the
empty string here, when cut at the start of the write). -/
theorem cache_write_direct_overwrite (cacheFile body : String)
    (hbody : body ≠ "") :
    fetchAndCacheTrace cacheFile body
      = [FsOp.makedirs (dirName cacheFile), FsOp.openTrunc cacheFile,
         FsOp.writeAll cacheFile body, FsOp.closeFile cacheFile]
    ∧ (fetchAndCacheTrace cacheFile body).all
        (fun op => match op with
          | FsOp.rename _ _ => false
          | _ => true) = true
    ∧ runInterrupted emptyFs (fetchAndCacheTrace cacheFile body) 2 0 cacheFile
        = some ""
    ∧ some "" ≠ some body := by
  refine ⟨rfl, by simp [fetchAndCacheTrace], ?_, ?_⟩
  · simp [runInterrupted, runFsOps, fetchAndCacheTrace, applyFsOp, emptyFs,
          Function.update]
  · simpa using fun hcontra => hbody hcontra.symm

/-- Witness for C3 at a concrete path and body. -/
theorem cache_write_direct_overwrite_witness :
    fetchAndCacheTrace "d/cache.json" "[1]"
      = [FsOp.makedirs (dirName "d/cache.json"), FsOp.openTrunc "d/cache.json",
         FsOp.writeAll "d/cache.json" "[1]", FsOp.closeFile "d/cache.json"]
    ∧ (fetchAndCacheTrace "d/cache.json" "[1]").all
        (fun op => match op with
          | FsOp.rename _ _ => false
          | _ => true) = true
    ∧ runInterrupted emptyFs (fetchAndCacheTrace "d/cache.json" "[1]") 2 0
        "d/cache.json" = some ""
    ∧ some "" ≠ some "[1]" :=
  cache_write_direct_overwrite "d/cache.json" "[1]" (by decide)

end TfdSearch
